import Mathlib

/-!
Shallow embedding of django-changuito's cart proxy (src/changuito/proxy.py)
over an explicit store of Cart and Item rows, together with proofs about the
proxy's operations.  The Django ORM layer is modelled by explicit list
queries: QuerySet.get on a prefiltered row list returns the unique row or
fails with DoesNotExist / MultipleObjectsReturned, Model.save is an
update-or-insert keyed by primary key, and QuerySet.delete removes the
matching rows without raising.
-/

namespace Changuito

/-- Polymorphic product key: content-type kind plus object id.  The source
identifies a product by its Django content type together with the concrete
object, which this pair abstracts. -/
structure ProductRef where
  kind : Nat
  objId : Nat
deriving DecidableEq

/-- Modelled from the spec: the Cart model of models.py (models.py is not
under src/): opaque id, optional owner, and the isCheckedOut flag, which is
false at creation. -/
structure Cart where
  id : Nat
  userId : Option Nat
  checkedOut : Bool
deriving DecidableEq

/-- Modelled from the spec: the Item model of models.py (models.py is not
under src/): opaque id, owning cart, ProductRef, exact-decimal unit price and
a mutable quantity.  Quantities are modelled as rationals because the Python
field accepts whatever value callers store; prices are exact decimals, hence
rationals. -/
structure Item where
  id : Nat
  cartId : Nat
  product : ProductRef
  unitPrice : ℚ
  quantity : ℚ
deriving DecidableEq

/-- Modelled from the spec: Item.totalPrice is unitPrice times quantity. -/
def Item.total_price (i : Item) : ℚ := i.unitPrice * i.quantity

/-- The persistence backend: the Cart and Item tables plus primary-key
counters used when a row is first saved. -/
structure Store where
  carts : List Cart
  items : List Item
  nextCartId : Nat
  nextItemId : Nat
deriving DecidableEq

/-- Errors that escape a proxy method: the proxy's own ItemDoesNotExist and
CartDoesNotExist, uncaught ORM exceptions, and the NameError produced by
CartProxy.__init__ when it is called without a request and without a cart. -/
inductive PErr where
  | itemDoesNotExist
  | cartDoesNotExist
  | djDoesNotExist
  | multipleObjectsReturned
  | nameError
deriving DecidableEq

/-- ORM-level failures of QuerySet.get. -/
inductive DjErr where
  | doesNotExist
  | multipleObjectsReturned
deriving DecidableEq

/-- Django QuerySet.get over a prefiltered row list: exactly one row, or
DoesNotExist on zero rows, or MultipleObjectsReturned on several. -/
def djGet {α : Type} (l : List α) : Except DjErr α :=
  match l with
  | [] => .error .doesNotExist
  | [x] => .ok x
  | _ :: _ :: _ => .error .multipleObjectsReturned

/-- Model.save for a cart: UPDATE the row with this primary key when present,
else INSERT it (Django's save falls back to an insert when the update touches
no row). -/
def saveCart (s : Store) (c : Cart) : Store :=
  if s.carts.any (fun x => decide (x.id = c.id)) then
    { s with carts := s.carts.map (fun x => if x.id = c.id then c else x) }
  else
    { s with carts := s.carts ++ [c] }

/-- Model.save for an item row that already has a primary key. -/
def saveItem (s : Store) (i : Item) : Store :=
  if s.items.any (fun x => decide (x.id = i.id)) then
    { s with items := s.items.map (fun x => if x.id = i.id then i else x) }
  else
    { s with items := s.items ++ [i] }

/-- Cart.delete: remove the cart row; its items are removed as well by the
foreign-key cascade (modelled from the spec, models.py is not under src/). -/
def deleteCart (s : Store) (c : Cart) : Store :=
  { s with carts := s.carts.filter (fun x => decide (x.id ≠ c.id)),
           items := s.items.filter (fun i => decide (i.cartId ≠ c.id)) }

/-- Row predicate of the (cart, product) lookups used by add and update; the
content-type component of the source lookup is the kind field of the
ProductRef. -/
def matchItem (cid : Nat) (p : ProductRef) (i : Item) : Bool :=
  decide (i.cartId = cid ∧ i.product = p)

/-- The current cart's item rows (cart.item_set.all()). -/
def itemsOf (s : Store) (cid : Nat) : List Item :=
  s.items.filter (fun i => decide (i.cartId = cid))

/-- Python's int() applied to a numeric quantity: truncation toward zero. -/
def pyInt (q : ℚ) : Int :=
  if 0 ≤ q then ⌊q⌋ else -⌊-q⌋

/-- An inbound request: the authenticated user when request.user is not
anonymous, and the CART-ID entry of the session. -/
structure Request where
  authUserId : Option Nat
  sessionCartId : Option Nat
deriving DecidableEq

/-- CartProxy.new: save a fresh cart for the given user.  The checkedOut
default false is modelled from the spec (the field default lives in
models.py, which is not under src/); the session write
request.session[CART-ID] = cart.id mutates caller-held session state that is
outside the store and is not modelled. -/
def new (s : Store) (uid : Option Nat) : Cart × Store :=
  let cart : Cart := { id := s.nextCartId, userId := uid, checkedOut := false }
  (cart, { s with carts := s.carts ++ [cart], nextCartId := s.nextCartId + 1 })

/-- Collapse an ORM failure to a unit-valued error, the way the bare except
of CartProxy.__init__ treats every exception of its try-block alike. -/
def orUnit {α : Type} (e : Except DjErr α) : Except Unit α :=
  match e with
  | .ok a => .ok a
  | .error _ => .error ()

/-- The try-block of CartProxy.__init__: search by user when authenticated,
else by the session's cart id.  Every exception it raises — Cart.DoesNotExist,
MultipleObjectsReturned, the failing get when the session holds no id, and
the NameError on the unbound user when request is None — is caught by the
bare except, so the error value is just a unit. -/
def initTry (s : Store) (req : Option Request) : Except Unit Cart :=
  match req with
  | none => .error ()
  | some r =>
    match r.authUserId with
    | some uid =>
      orUnit (djGet (s.carts.filter (fun c => decide (c.userId = some uid ∧ c.checkedOut = false))))
    | none =>
      match r.sessionCartId with
      | none => .error ()
      | some cid =>
        orUnit (djGet (s.carts.filter (fun c => decide (c.id = cid ∧ c.checkedOut = false))))

/-- The except-handler of CartProxy.__init__: a supplied cart is re-fetched
by id — a fetch whose DoesNotExist or MultipleObjectsReturned escapes, since
it runs inside the handler; with no supplied cart a fresh cart is created,
except that a construction with neither request nor cart hits the unbound
user local (NameError). -/
def initFallback (s : Store) (req : Option Request) (cartArg : Option Cart) :
    Except PErr (Cart × Store) :=
  match cartArg with
  | some cArg =>
    match djGet (s.carts.filter (fun c => decide (c.id = cArg.id))) with
    | .ok c => .ok (c, s)
    | .error .doesNotExist => .error .djDoesNotExist
    | .error .multipleObjectsReturned => .error .multipleObjectsReturned
  | none =>
    match req with
    | none => .error .nameError
    | some r => .ok (new s r.authUserId)

/-- CartProxy.__init__: resolve a cart for the request; on any failure of the
try-block the bare except falls through to initFallback. -/
def init (s : Store) (req : Option Request) (cartArg : Option Cart) :
    Except PErr (Cart × Store) :=
  match initTry s req with
  | .ok c => .ok (c, s)
  | .error _ => initFallback s req cartArg

/-- CartProxy.add: get the item by (cart, product, content type); on
DoesNotExist create and save a fresh item with the given price and quantity,
otherwise increment the stored quantity by int(quantity) and save.  A
MultipleObjectsReturned of the get is not caught and escapes. -/
def add (s : Store) (cid : Nat) (p : ProductRef) (unit_price quantity : ℚ) :
    Except PErr (Item × Store) :=
  match djGet (s.items.filter (matchItem cid p)) with
  | .ok item =>
    let item' : Item := { item with quantity := item.quantity + (pyInt quantity : ℚ) }
    .ok (item', saveItem s item')
  | .error .doesNotExist =>
    let item : Item :=
      { id := s.nextItemId, cartId := cid, product := p,
        unitPrice := unit_price, quantity := quantity }
    .ok (item, { s with items := s.items ++ [item], nextItemId := s.nextItemId + 1 })
  | .error .multipleObjectsReturned => .error .multipleObjectsReturned

/-- CartProxy.remove_item: cart.item_set.filter(id=item_id).delete().
QuerySet.delete removes the matching rows and raises no Item.DoesNotExist,
so the source's except branch is unreachable and the call always succeeds,
deleting zero rows when no item of the current cart has the id. -/
def remove_item (s : Store) (cid : Nat) (item_id : Nat) : Except PErr Store :=
  .ok { s with items := s.items.filter (fun i => decide (¬ (i.cartId = cid ∧ i.id = item_id))) }

/-- CartProxy.update_item: get the item by bare primary key — the current
cart is not consulted — set its quantity to the given value and save; a get
with no match raises the proxy's ItemDoesNotExist. -/
def update_item (s : Store) (item_pk : Nat) (new_quantity : ℚ) :
    Except PErr (Item × Store) :=
  match djGet (s.items.filter (fun i => decide (i.id = item_pk))) with
  | .ok item =>
    let item' : Item := { item with quantity := new_quantity }
    .ok (item', saveItem s item')
  | .error .doesNotExist => .error .itemDoesNotExist
  | .error .multipleObjectsReturned => .error .multipleObjectsReturned

/-- CartProxy.update: get the item by (cart, product), set its quantity and
save.  The unit_price parameter of the source is accepted and never used. -/
def update (s : Store) (cid : Nat) (p : ProductRef) (quantity : ℚ)
    (unit_price : Option ℚ) : Except PErr (Item × Store) :=
  match djGet (s.items.filter (matchItem cid p)) with
  | .ok item =>
    let item' : Item := { item with quantity := quantity }
    .ok (item', saveItem s item')
  | .error .doesNotExist => .error .itemDoesNotExist
  | .error .multipleObjectsReturned => .error .multipleObjectsReturned

/-- CartProxy.delete_old_cart: get the user's cart — with no checked_out
filter — and delete it; Cart.DoesNotExist is swallowed, while a
MultipleObjectsReturned of the get escapes. -/
def delete_old_cart (s : Store) (uid : Nat) : Except PErr Store :=
  match djGet (s.carts.filter (fun c => decide (c.userId = some uid))) with
  | .ok cart => .ok (deleteCart s cart)
  | .error .doesNotExist => .ok s
  | .error .multipleObjectsReturned => .error .multipleObjectsReturned

/-- CartProxy.replace: delete_old_cart(new_user), then get the cart by
primary key, reassign its user and save.  Only Cart.DoesNotExist is mapped
to the proxy's CartDoesNotExist; a MultipleObjectsReturned, from either
step, escapes unchanged. -/
def replace (s : Store) (cart_id : Nat) (new_user : Nat) :
    Except PErr (Cart × Store) :=
  match delete_old_cart s new_user with
  | .error e => .error e
  | .ok s1 =>
    match djGet (s1.carts.filter (fun c => decide (c.id = cart_id))) with
    | .ok cart =>
      let cart' : Cart := { cart with userId := some new_user }
      .ok (cart', saveCart s1 cart')
    | .error .doesNotExist => .error .cartDoesNotExist
    | .error .multipleObjectsReturned => .error .multipleObjectsReturned

/-- CartProxy.clear: delete every item of the current cart. -/
def clear (s : Store) (cid : Nat) : Store :=
  { s with items := s.items.filter (fun i => decide (¬ i.cartId = cid)) }

/-- CartProxy.total: sum of total_price over the cart's items; Python's sum
of an empty list is the exact integer zero. -/
def total (s : Store) (cid : Nat) : ℚ :=
  ((itemsOf s cid).map Item.total_price).sum

/-- CartProxy.count: sum of the quantities of the cart's items. -/
def count (s : Store) (cid : Nat) : ℚ :=
  ((itemsOf s cid).map Item.quantity).sum

/-- CartProxy.unique_count: the number of item rows of the cart. -/
def unique_count (s : Store) (cid : Nat) : Nat :=
  (itemsOf s cid).length

/-- CartProxy.checkout: set checked_out on the proxy's cart and save it,
returning the cart.  Model.save raises no Cart.DoesNotExist — with the
primary key set it updates the row or, when the row is gone, re-inserts it —
so the source's except branch is unreachable. -/
def checkout (s : Store) (cart : Cart) : Cart × Store :=
  let cart' : Cart := { cart with checkedOut := true }
  (cart', saveCart s cart')

/-- CartProxy.get_last_cart: get the user's open cart; when there is none,
bind the proxy's own cart to the user and save it.  The result triple is
(returned cart, proxy cart after the in-place mutation of self.cart, store). -/
def get_last_cart (s : Store) (me : Cart) (uid : Nat) :
    Except PErr (Cart × Cart × Store) :=
  match djGet (s.carts.filter (fun c => decide (c.userId = some uid ∧ c.checkedOut = false))) with
  | .ok cart => .ok (cart, me, s)
  | .error .doesNotExist =>
    let me' : Cart := { me with userId := some uid }
    .ok (me', me', saveCart s me')
  | .error .multipleObjectsReturned => .error .multipleObjectsReturned

/-- One proxy session: the store together with the proxy's current cart
(self.cart). -/
structure Sess where
  store : Store
  current : Cart
deriving DecidableEq

/-- The operations a caller can run against a proxy session; read-only
accessors (total, count, unique_count, is_empty, get_item, iteration) do not
mutate state and are omitted. -/
inductive Op where
  | resolveOp (req : Option Request) (cartArg : Option Cart)
  | newOp (uid : Option Nat)
  | addOp (p : ProductRef) (price q : ℚ)
  | removeItemOp (item_id : Nat)
  | updateItemOp (pk : Nat) (q : ℚ)
  | updateOp (p : ProductRef) (q : ℚ) (u : Option ℚ)
  | deleteOldCartOp (uid : Nat)
  | replaceOp (cart_id uid : Nat)
  | clearOp
  | checkoutOp
  | getLastCartOp (uid : Nat)

/-- Run one operation against a session.  An operation that raises leaves
the session as it was: every write of the embedding is a single atomic store
update, so an escaping exception reaches the caller with the prior state. -/
def step (σ : Sess) (op : Op) : Sess :=
  match op with
  | .resolveOp req cartArg =>
    match init σ.store req cartArg with
    | .ok (c, s') => ⟨s', c⟩
    | .error _ => σ
  | .newOp uid => ⟨(new σ.store uid).2, σ.current⟩
  | .addOp p price q =>
    match add σ.store σ.current.id p price q with
    | .ok (_, s') => ⟨s', σ.current⟩
    | .error _ => σ
  | .removeItemOp iid =>
    match remove_item σ.store σ.current.id iid with
    | .ok s' => ⟨s', σ.current⟩
    | .error _ => σ
  | .updateItemOp pk q =>
    match update_item σ.store pk q with
    | .ok (_, s') => ⟨s', σ.current⟩
    | .error _ => σ
  | .updateOp p q u =>
    match update σ.store σ.current.id p q u with
    | .ok (_, s') => ⟨s', σ.current⟩
    | .error _ => σ
  | .deleteOldCartOp uid =>
    match delete_old_cart σ.store uid with
    | .ok s' => ⟨s', σ.current⟩
    | .error _ => σ
  | .replaceOp cid uid =>
    match replace σ.store cid uid with
    | .ok (_, s') => ⟨s', σ.current⟩
    | .error _ => σ
  | .clearOp => ⟨clear σ.store σ.current.id, σ.current⟩
  | .checkoutOp =>
    ⟨(checkout σ.store σ.current).2, (checkout σ.store σ.current).1⟩
  | .getLastCartOp uid =>
    match get_last_cart σ.store σ.current uid with
    | .ok (_, me', s') => ⟨s', me'⟩
    | .error _ => σ

/-- Run a sequence of operations. -/
def run (σ : Sess) (ops : List Op) : Sess :=
  ops.foldl step σ

/-- Some cart row with the given id is checked out. -/
def checkedOutIn (s : Store) (i : Nat) : Bool :=
  s.carts.any (fun c => decide (c.id = i ∧ c.checkedOut = true))

/-- Some cart row with the given id is open. -/
def openIn (s : Store) (i : Nat) : Bool :=
  s.carts.any (fun c => decide (c.id = i ∧ c.checkedOut = false))

/-- Well-formedness of a session: stored ids stay below the id counter, ids
are unique, the proxy's in-memory cart is at least as checked-out as its
stored row, and its id is below the counter. -/
def WFsess (σ : Sess) : Prop :=
  (∀ c ∈ σ.store.carts, c.id < σ.store.nextCartId) ∧
  (σ.store.carts.map Cart.id).Nodup ∧
  (∀ c ∈ σ.store.carts, c.id = σ.current.id → c.checkedOut = true →
     σ.current.checkedOut = true) ∧
  σ.current.id < σ.store.nextCartId

/-- The inductive invariant behind the never-reopens property: the session is
well formed, the id is below the counter, no open row carries it, and the
proxy's cart, when it carries it, is checked out. -/
def NeverOpen (σ : Sess) (i : Nat) : Prop :=
  WFsess σ ∧ i < σ.store.nextCartId ∧ openIn σ.store i = false ∧
    (σ.current.id = i → σ.current.checkedOut = true)

/-- Decidability of session well-formedness, used to evaluate it on concrete
sessions. -/
instance instDecWFsess (σ : Sess) : Decidable (WFsess σ) := by
  unfold WFsess
  infer_instance

/-- Decidable equality of Except values, used to evaluate the proxy's
results on concrete stores. -/
instance instDecEqExcept {ε α : Type} [DecidableEq ε] [DecidableEq α] :
    DecidableEq (Except ε α) := fun a b =>
  match a, b with
  | .ok x, .ok y =>
    if h : x = y then isTrue (by rw [h]) else isFalse (fun hh => by cases hh; exact h rfl)
  | .error x, .error y =>
    if h : x = y then isTrue (by rw [h]) else isFalse (fun hh => by cases hh; exact h rfl)
  | .ok _, .error _ => isFalse (fun hh => by cases hh)
  | .error _, .ok _ => isFalse (fun hh => by cases hh)

theorem djGet_ok_iff {α : Type} {l : List α} {x : α} : djGet l = .ok x ↔ l = [x] := by
  cases l with
  | nil => simp [djGet]
  | cons a t =>
    cases t with
    | nil => simp [djGet]
    | cons b t2 => simp [djGet]

theorem djGet_nil {α : Type} : djGet ([] : List α) = .error .doesNotExist := rfl

theorem filter_eq_singleton_of_nodup {α : Type} {l : List α} {pr : α → Bool} {a : α}
    (hl : l.Nodup) (ha : a ∈ l) (hpa : pr a = true)
    (hu : ∀ x ∈ l, pr x = true → x = a) : l.filter pr = [a] := by
  induction l with
  | nil => cases ha
  | cons b t ih =>
    rcases List.mem_cons.mp ha with hba | hat
    · subst hba
      rw [List.filter_cons_of_pos hpa]
      have ht : t.filter pr = [] := by
        rw [List.filter_eq_nil_iff]
        intro x hx hpx
        have := hu x (List.mem_cons_of_mem _ hx) hpx
        subst this
        exact (List.nodup_cons.mp hl).1 hx
      rw [ht]
    · have hb : pr b = false := by
        by_contra hpb
        have hpb' : pr b = true := by
          cases hcb : pr b
          · exact absurd hcb hpb
          · rfl
        have := hu b (List.mem_cons_self b t) hpb'
        subst this
        exact (List.nodup_cons.mp hl).1 hat
      rw [List.filter_cons_of_neg (by simp [hb])]
      exact ih (List.nodup_cons.mp hl).2 hat
        (fun x hx hpx => hu x (List.mem_cons_of_mem _ hx) hpx)

theorem mem_of_filter_singleton {α : Type} {l : List α} {pr : α → Bool} {a : α}
    (h : l.filter pr = [a]) : a ∈ l ∧ pr a = true := by
  have : a ∈ l.filter pr := by rw [h]; exact List.mem_singleton_self a
  exact ⟨List.mem_of_mem_filter this, (List.mem_filter.mp this).2⟩

theorem eq_of_mem_filter_singleton {α : Type} {l : List α} {pr : α → Bool} {a x : α}
    (h : l.filter pr = [a]) (hx : x ∈ l) (hpx : pr x = true) : x = a := by
  have : x ∈ l.filter pr := List.mem_filter.mpr ⟨hx, hpx⟩
  rw [h] at this
  exact List.mem_singleton.mp this

theorem saveCart_items (s : Store) (c : Cart) : (saveCart s c).items = s.items := by
  unfold saveCart; split <;> rfl

theorem saveCart_nextCartId (s : Store) (c : Cart) :
    (saveCart s c).nextCartId = s.nextCartId := by
  unfold saveCart; split <;> rfl

theorem saveCart_mem {s : Store} {c x : Cart} (h : x ∈ (saveCart s c).carts) :
    x = c ∨ x ∈ s.carts := by
  unfold saveCart at h
  split at h
  · simp only [List.mem_map] at h
    obtain ⟨a, ha, hx⟩ := h
    by_cases hid : a.id = c.id
    · left; rw [← hx, if_pos hid]
    · right; rw [← hx, if_neg hid]; exact ha
  · rcases List.mem_append.mp h with h1 | h1
    · right; exact h1
    · left; exact List.mem_singleton.mp h1

theorem saveCart_mem_self {s : Store} {c : Cart} : c ∈ (saveCart s c).carts := by
  unfold saveCart
  split
  · rename_i h
    rcases List.any_eq_true.mp h with ⟨x, hx, hpx⟩
    have hid : x.id = c.id := of_decide_eq_true hpx
    show c ∈ s.carts.map (fun y => if y.id = c.id then c else y)
    exact List.mem_map.mpr ⟨x, hx, by rw [if_pos hid]⟩
  · exact List.mem_append.mpr (Or.inr (List.mem_singleton_self c))

theorem saveCart_ids (s : Store) (c : Cart) :
    (saveCart s c).carts.map Cart.id = s.carts.map Cart.id ∨
      ((saveCart s c).carts.map Cart.id = s.carts.map Cart.id ++ [c.id] ∧
        c.id ∉ s.carts.map Cart.id) := by
  unfold saveCart
  split
  · left
    show (s.carts.map (fun x => if x.id = c.id then c else x)).map Cart.id = _
    rw [List.map_map]
    apply List.map_congr_left
    intro a _
    show Cart.id (if a.id = c.id then c else a) = a.id
    by_cases hid : a.id = c.id
    · rw [if_pos hid, hid]
    · rw [if_neg hid]
  · rename_i h
    right
    constructor
    · simp
    · intro hmem
      apply h
      rw [List.any_eq_true]
      rcases List.mem_map.mp hmem with ⟨x, hx, hxid⟩
      exact ⟨x, hx, decide_eq_true hxid⟩

theorem saveItem_carts (s : Store) (i : Item) : (saveItem s i).carts = s.carts := by
  unfold saveItem; split <;> rfl

theorem saveItem_nextIds (s : Store) (i : Item) :
    (saveItem s i).nextCartId = s.nextCartId ∧ (saveItem s i).nextItemId = s.nextItemId := by
  unfold saveItem; split <;> exact ⟨rfl, rfl⟩

theorem deleteCart_mem_carts {s : Store} {c x : Cart} :
    x ∈ (deleteCart s c).carts ↔ x ∈ s.carts ∧ x.id ≠ c.id := by
  unfold deleteCart
  simp [List.mem_filter]

theorem deleteCart_mem_items {s : Store} {c : Cart} {i : Item} :
    i ∈ (deleteCart s c).items ↔ i ∈ s.items ∧ i.cartId ≠ c.id := by
  unfold deleteCart
  simp [List.mem_filter]

/-- C1 counterexample: removing a non-existent item id (99) from the current
cart does not fail with ItemNotFound as claimed — the call succeeds and
leaves the store unchanged. -/
theorem remove_item_cex :
    remove_item ⟨[⟨1, none, false⟩], [⟨1, 1, ⟨0, 1⟩, 1, 1⟩], 2, 2⟩ 1 99 =
      .ok ⟨[⟨1, none, false⟩], [⟨1, 1, ⟨0, 1⟩, 1, 1⟩], 2, 2⟩ := by decide

/-- C1 amended: remove_item(itemId) always succeeds: it deletes exactly the
current cart's items carrying the given id, leaves the carts untouched, and
is a silent no-op — not an ItemNotFound failure — when the current cart has
no such item. -/
theorem remove_item_spec (s : Store) (cid item_id : Nat) :
    ∃ s', remove_item s cid item_id = .ok s' ∧ s'.carts = s.carts ∧
      (∀ i, i ∈ s'.items ↔ i ∈ s.items ∧ ¬(i.cartId = cid ∧ i.id = item_id)) ∧
      ((∀ i ∈ s.items, ¬(i.cartId = cid ∧ i.id = item_id)) → s' = s) := by
  refine ⟨_, rfl, rfl, ?_, ?_⟩
  · intro i
    simp [remove_item, List.mem_filter]
    tauto
  · intro h
    have heq : s.items.filter (fun i => decide (¬(i.cartId = cid ∧ i.id = item_id))) = s.items :=
      List.filter_eq_self.mpr (fun a ha => decide_eq_true (h a ha))
    show ({ s with items := s.items.filter _ } : Store) = s
    rw [heq]

/-- C1 witness: the amended statement instantiated on a one-item store. -/
theorem remove_item_spec_witness :
    ∃ s', remove_item ⟨[⟨1, none, false⟩], [⟨1, 1, ⟨0, 1⟩, 1, 1⟩], 2, 2⟩ 1 99 = .ok s' ∧
      s'.carts = [⟨1, none, false⟩] ∧
      (∀ i, i ∈ s'.items ↔ i ∈ [(⟨1, 1, ⟨0, 1⟩, 1, 1⟩ : Item)] ∧ ¬(i.cartId = 1 ∧ i.id = 99)) ∧
      ((∀ i ∈ [(⟨1, 1, ⟨0, 1⟩, 1, 1⟩ : Item)], ¬(i.cartId = 1 ∧ i.id = 99)) → s' =
        ⟨[⟨1, none, false⟩], [⟨1, 1, ⟨0, 1⟩, 1, 1⟩], 2, 2⟩) :=
  remove_item_spec ⟨[⟨1, none, false⟩], [⟨1, 1, ⟨0, 1⟩, 1, 1⟩], 2, 2⟩ 1 99

theorem orUnit_ok {α : Type} {e : Except DjErr α} {a : α}
    (h : orUnit e = .ok a) : e = .ok a := by
  cases e with
  | ok b => simpa [orUnit] using h
  | error x => exact absurd h (by simp [orUnit])

theorem initTry_ok {s : Store} {req : Option Request} {c : Cart}
    (h : initTry s req = .ok c) : c ∈ s.carts ∧ c.checkedOut = false := by
  cases req with
  | none => simp [initTry] at h
  | some r =>
    cases hu : r.authUserId with
    | some uid =>
      simp only [initTry, hu] at h
      have hm := mem_of_filter_singleton (djGet_ok_iff.mp (orUnit_ok h))
      exact ⟨hm.1, (of_decide_eq_true hm.2).2⟩
    | none =>
      cases hs : r.sessionCartId with
      | none => simp [initTry, hu, hs] at h
      | some cid =>
        simp only [initTry, hu, hs] at h
        have hm := mem_of_filter_singleton (djGet_ok_iff.mp (orUnit_ok h))
        exact ⟨hm.1, (of_decide_eq_true hm.2).2⟩

/-- C3 counterexample: resolution does raise.  With an anonymous request whose
session holds no cart id and an explicitly supplied cart whose id is absent
from the store, the re-fetch inside the except handler fails with
Cart.DoesNotExist, which nothing catches. -/
theorem resolve_cex :
    init ⟨[], [], 1, 1⟩ (some ⟨none, none⟩) (some ⟨5, none, false⟩) =
      .error .djDoesNotExist := by decide

/-- C3 amended: resolution never raises when a request is present and no cart
handle is supplied — every lookup failure falls through to creating a fresh
cart, and the cart returned is always open; when a cart handle is supplied,
the re-fetch by id can itself fail and that failure escapes to the caller. -/
theorem resolve_spec (s : Store) (r : Request) :
    ∃ c s', init s (some r) none = .ok (c, s') ∧ c.checkedOut = false := by
  unfold init
  cases htry : initTry s (some r) with
  | ok c => exact ⟨c, s, rfl, (initTry_ok htry).2⟩
  | error e => exact ⟨_, _, rfl, rfl⟩

/-- C3 witness: the amended statement instantiated on the empty store and an
anonymous request with an empty session: resolution succeeds with a fresh
open cart. -/
theorem resolve_spec_witness :
    ∃ c s', init ⟨[], [], 1, 1⟩ (some ⟨none, none⟩) none = .ok (c, s') ∧
      c.checkedOut = false :=
  resolve_spec ⟨[], [], 1, 1⟩ ⟨none, none⟩

/-- C6: total() is the exact rational sum of unitPrice times quantity over the
cart's items, an empty cart totals exactly zero, and the cart holding items
(unitPrice 3.50, quantity 2) and (unitPrice 1.25, quantity 4) totals exactly
12 — no floating-point representation enters the model. -/
theorem total_spec (s : Store) (cid : Nat) :
    total s cid = ((itemsOf s cid).map (fun i => i.unitPrice * i.quantity)).sum ∧
    (itemsOf s cid = [] → total s cid = 0) ∧
    total ⟨[⟨1, none, false⟩], [⟨1, 1, ⟨0, 1⟩, 7/2, 2⟩, ⟨2, 1, ⟨0, 2⟩, 5/4, 4⟩], 2, 3⟩ 1 = 12 := by
  refine ⟨rfl, ?_, ?_⟩
  · intro h
    simp [total, h]
  · show ((itemsOf _ 1).map Item.total_price).sum = 12
    simp only [itemsOf]
    norm_num [Item.total_price]

/-- C6 witness: the empty-cart clause of total_spec instantiated on the empty
store. -/
theorem total_spec_witness :
    itemsOf ⟨[], [], 1, 1⟩ 0 = [] ∧ total ⟨[], [], 1, 1⟩ 0 = 0 :=
  ⟨rfl, (total_spec ⟨[], [], 1, 1⟩ 0).2.1 rfl⟩

/-- C4 counterexample: user 7's only cart is already checked out, so the user
owns no open cart and the claim demands a no-op; delete_old_cart deletes the
checked-out cart (and its item) anyway. -/
theorem delete_old_cart_cex :
    ((⟨[⟨1, some 7, true⟩], [⟨1, 1, ⟨0, 1⟩, 1, 1⟩], 2, 2⟩ : Store).carts.filter
        (fun c => decide (c.userId = some 7 ∧ c.checkedOut = false)) = []) ∧
    delete_old_cart ⟨[⟨1, some 7, true⟩], [⟨1, 1, ⟨0, 1⟩, 1, 1⟩], 2, 2⟩ 7 ≠
      .ok ⟨[⟨1, some 7, true⟩], [⟨1, 1, ⟨0, 1⟩, 1, 1⟩], 2, 2⟩ := by decide

/-- C4 amended: delete_old_cart(user) deletes the user's cart regardless of
its checked-out state — cascading to the cart's items — when the user owns
exactly one cart; it is a no-op when the user owns none; and when the user
owns several carts the lookup's MultipleObjectsReturned escapes to the
caller instead of deleting anything. -/
theorem delete_old_cart_spec (s : Store) (uid : Nat) :
    ((∀ c ∈ s.carts, c.userId ≠ some uid) → delete_old_cart s uid = .ok s) ∧
    (∀ c, s.carts.filter (fun x => decide (x.userId = some uid)) = [c] →
      ∃ s', delete_old_cart s uid = .ok s' ∧
        (∀ x, x ∈ s'.carts ↔ x ∈ s.carts ∧ x.id ≠ c.id) ∧
        (∀ i, i ∈ s'.items ↔ i ∈ s.items ∧ i.cartId ≠ c.id)) ∧
    (2 ≤ (s.carts.filter (fun x => decide (x.userId = some uid))).length →
      delete_old_cart s uid = .error .multipleObjectsReturned) := by
  refine ⟨?_, ?_, ?_⟩
  · intro h
    have hf : s.carts.filter (fun x => decide (x.userId = some uid)) = [] :=
      List.filter_eq_nil_iff.mpr (fun a ha => by simpa using h a ha)
    unfold delete_old_cart
    rw [hf]
    rfl
  · intro c h
    refine ⟨deleteCart s c, ?_, fun x => deleteCart_mem_carts, fun i => deleteCart_mem_items⟩
    unfold delete_old_cart
    rw [h]
    rfl
  · intro h
    rcases hl : s.carts.filter (fun x => decide (x.userId = some uid)) with _ | ⟨x, _ | ⟨y, t⟩⟩
    · rw [hl] at h; simp at h
    · rw [hl] at h; simp at h
    · unfold delete_old_cart
      rw [hl]
      rfl

/-- C4 witness: the amended statement instantiated on the store where user 7
owns the single checked-out cart 1 with one item. -/
theorem delete_old_cart_spec_witness :
    ∃ s', delete_old_cart ⟨[⟨1, some 7, true⟩], [⟨1, 1, ⟨0, 1⟩, 1, 1⟩], 2, 2⟩ 7 = .ok s' ∧
      (∀ x, x ∈ s'.carts ↔ x ∈ [(⟨1, some 7, true⟩ : Cart)] ∧ x.id ≠ 1) ∧
      (∀ i, i ∈ s'.items ↔ i ∈ [(⟨1, 1, ⟨0, 1⟩, 1, 1⟩ : Item)] ∧ i.cartId ≠ 1) :=
  (delete_old_cart_spec ⟨[⟨1, some 7, true⟩], [⟨1, 1, ⟨0, 1⟩, 1, 1⟩], 2, 2⟩ 7).2.1
    ⟨1, some 7, true⟩ (by decide)

/-- C5 counterexample: the new owner 7 holds two carts (one open, one checked
out) and cart 3 exists; replace(3, 7) neither deletes the open cart nor
reassigns cart 3 — the owner lookup's MultipleObjectsReturned escapes — where
the claim demands deletion of the open cart and a successful reassignment. -/
theorem replace_cex :
    ((⟨[⟨1, some 7, false⟩, ⟨2, some 7, true⟩, ⟨3, none, false⟩], [], 4, 1⟩ : Store).carts.any
        (fun c => decide (c.id = 3)) = true) ∧
    replace ⟨[⟨1, some 7, false⟩, ⟨2, some 7, true⟩, ⟨3, none, false⟩], [], 4, 1⟩ 3 7 =
      .error .multipleObjectsReturned := by decide

theorem replace_eq_of_del {s s1 : Store} {cart_id uid : Nat}
    (hDel : delete_old_cart s uid = .ok s1) :
    replace s cart_id uid =
      match djGet (s1.carts.filter (fun c => decide (c.id = cart_id))) with
      | .ok cart =>
        .ok ({ cart with userId := some uid }, saveCart s1 { cart with userId := some uid })
      | .error .doesNotExist => .error .cartDoesNotExist
      | .error .multipleObjectsReturned => .error .multipleObjectsReturned := by
  unfold replace
  rw [hDel]

/-- C5 amended: when the new owner owns at most one cart and that cart is not
the one identified by cart_id, replace deletes the owner's pre-existing cart
— whatever its checked-out state — together with its items, reassigns the
cart cart_id to the owner, saves and returns it; it fails with
CartDoesNotExist when no cart carries cart_id.  (When the owner holds several
carts, the lookup's MultipleObjectsReturned escapes instead: see the
counterexample.) -/
theorem replace_spec (s : Store) (cart_id uid : Nat)
    (hN : (s.carts.map Cart.id).Nodup)
    (hOwn : (s.carts.filter (fun c => decide (c.userId = some uid))).length ≤ 1)
    (hSelf : ∀ c ∈ s.carts, c.userId = some uid → c.id ≠ cart_id) :
    ((∀ c ∈ s.carts, c.id ≠ cart_id) → replace s cart_id uid = .error .cartDoesNotExist) ∧
    (∀ c, c ∈ s.carts → c.id = cart_id →
      ∃ s', replace s cart_id uid = .ok ({ c with userId := some uid }, s') ∧
        { c with userId := some uid } ∈ s'.carts ∧
        (∀ x, x ∈ s'.carts → x.userId = some uid → x = { c with userId := some uid }) ∧
        (∀ x ∈ s.carts, x.userId = some uid → ∀ i ∈ s'.items, i.cartId ≠ x.id) ∧
        (∀ i ∈ s.items, (∀ x ∈ s.carts, x.userId = some uid → i.cartId ≠ x.id) →
          i ∈ s'.items)) := by
  have hCN : s.carts.Nodup := hN.of_map
  rcases hF : s.carts.filter (fun c => decide (c.userId = some uid)) with _ | ⟨w, tl⟩
  · -- the new owner holds no cart: delete_old_cart is a no-op
    have hDel : delete_old_cart s uid = .ok s := by
      unfold delete_old_cart
      rw [hF]
      rfl
    have hNoOwn : ∀ x ∈ s.carts, x.userId ≠ some uid := by
      intro x hx hxu
      have : x ∈ s.carts.filter (fun c => decide (c.userId = some uid)) :=
        List.mem_filter.mpr ⟨hx, decide_eq_true hxu⟩
      rw [hF] at this
      cases this
    constructor
    · intro h
      have hfil : s.carts.filter (fun c => decide (c.id = cart_id)) = [] :=
        List.filter_eq_nil_iff.mpr (fun a ha => by simpa using h a ha)
      rw [replace_eq_of_del hDel, hfil]
      rfl
    · intro c hc hcid
      have hfil : s.carts.filter (fun c => decide (c.id = cart_id)) = [c] := by
        apply filter_eq_singleton_of_nodup hCN hc (decide_eq_true hcid)
        intro x hx hpx
        exact List.inj_on_of_nodup_map hN hx hc ((of_decide_eq_true hpx).trans hcid.symm)
      refine ⟨saveCart s { c with userId := some uid }, ?_, saveCart_mem_self, ?_, ?_, ?_⟩
      · rw [replace_eq_of_del hDel, hfil]
        rfl
      · intro x hx hxu
        rcases saveCart_mem hx with h1 | h1
        · exact h1
        · exact absurd hxu (hNoOwn x h1)
      · intro x hx hxu
        exact absurd hxu (hNoOwn x hx)
      · intro i hi _
        rw [saveCart_items]
        exact hi
  · -- the new owner holds exactly one cart w, which gets deleted
    have htl : tl = [] := by
      cases tl with
      | nil => rfl
      | cons y t => rw [hF] at hOwn; simp at hOwn
    subst htl
    have hw := mem_of_filter_singleton hF
    have hwmem : w ∈ s.carts := hw.1
    have hwuid : w.userId = some uid := of_decide_eq_true hw.2
    have hwid : w.id ≠ cart_id := hSelf w hwmem hwuid
    have hOwnW : ∀ x ∈ s.carts, x.userId = some uid → x = w := by
      intro x hx hxu
      exact eq_of_mem_filter_singleton hF hx (decide_eq_true hxu)
    have hDel : delete_old_cart s uid = .ok (deleteCart s w) := by
      unfold delete_old_cart
      rw [hF]
      rfl
    have hDN : (deleteCart s w).carts.Nodup :=
      (List.filter_sublist s.carts).nodup hCN
    constructor
    · intro h
      have hfil : (deleteCart s w).carts.filter (fun c => decide (c.id = cart_id)) = [] := by
        rw [List.filter_eq_nil_iff]
        intro a ha
        have := (deleteCart_mem_carts.mp ha).1
        simpa using h a this
      rw [replace_eq_of_del hDel, hfil]
      rfl
    · intro c hc hcid
      have hcw : c.id ≠ w.id := fun he => hwid (he ▸ hcid)
      have hcd : c ∈ (deleteCart s w).carts := deleteCart_mem_carts.mpr ⟨hc, hcw⟩
      have hfil : (deleteCart s w).carts.filter (fun c => decide (c.id = cart_id)) = [c] := by
        apply filter_eq_singleton_of_nodup hDN hcd (decide_eq_true hcid)
        intro x hx hpx
        exact List.inj_on_of_nodup_map hN (deleteCart_mem_carts.mp hx).1 hc
          ((of_decide_eq_true hpx).trans hcid.symm)
      refine ⟨saveCart (deleteCart s w) { c with userId := some uid }, ?_,
        saveCart_mem_self, ?_, ?_, ?_⟩
      · rw [replace_eq_of_del hDel, hfil]
        rfl
      · intro x hx hxu
        rcases saveCart_mem hx with h1 | h1
        · exact h1
        · have hxs := (deleteCart_mem_carts.mp h1).1
          have hxw := (deleteCart_mem_carts.mp h1).2
          exact absurd (congrArg Cart.id (hOwnW x hxs hxu)) hxw
      · intro x hx hxu i hi
        rw [saveCart_items] at hi
        have := (deleteCart_mem_items.mp hi).2
        rw [hOwnW x hx hxu]
        exact this
      · intro i hi hok
        rw [saveCart_items]
        exact deleteCart_mem_items.mpr ⟨hi, hok w hwmem hwuid⟩

/-- C5 witness: the amended statement instantiated on a store where new owner
7 holds the single checked-out cart 1 with one item and cart 2 is the target
of the reassignment. -/
theorem replace_spec_witness :
    ∃ s', replace ⟨[⟨1, some 7, true⟩, ⟨2, none, false⟩], [⟨1, 1, ⟨0, 1⟩, 1, 1⟩], 3, 2⟩ 2 7 =
        .ok (⟨2, some 7, false⟩, s') ∧
      (⟨2, some 7, false⟩ : Cart) ∈ s'.carts ∧
      (∀ x, x ∈ s'.carts → x.userId = some 7 → x = ⟨2, some 7, false⟩) ∧
      (∀ x ∈ [(⟨1, some 7, true⟩ : Cart), ⟨2, none, false⟩], x.userId = some 7 →
        ∀ i ∈ s'.items, i.cartId ≠ x.id) ∧
      (∀ i ∈ [(⟨1, 1, ⟨0, 1⟩, 1, 1⟩ : Item)],
        (∀ x ∈ [(⟨1, some 7, true⟩ : Cart), ⟨2, none, false⟩], x.userId = some 7 →
          i.cartId ≠ x.id) → i ∈ s'.items) :=
  (replace_spec ⟨[⟨1, some 7, true⟩, ⟨2, none, false⟩], [⟨1, 1, ⟨0, 1⟩, 1, 1⟩], 3, 2⟩ 2 7
      (by decide) (by decide) (by decide)).2 ⟨2, none, false⟩ (by decide) rfl

theorem map_id_of_mem {α : Type} {l : List α} {f : α → α}
    (h : ∀ x ∈ l, f x = x) : l.map f = l := by
  induction l with
  | nil => rfl
  | cons a t ih =>
    rw [List.map_cons, h a (List.mem_cons_self a t),
      ih (fun x hx => h x (List.mem_cons_of_mem _ hx))]

theorem add_of_filter_nil {s : Store} {cid : Nat} {p : ProductRef}
    (hf : s.items.filter (matchItem cid p) = []) (p1 q1 : ℚ) :
    add s cid p p1 q1 = .ok (⟨s.nextItemId, cid, p, p1, q1⟩,
      { s with items := s.items ++ [⟨s.nextItemId, cid, p, p1, q1⟩],
               nextItemId := s.nextItemId + 1 }) := by
  unfold add
  rw [hf]
  rfl

theorem add_of_filter_single {s : Store} {cid : Nat} {p : ProductRef} {it : Item}
    (hf : s.items.filter (matchItem cid p) = [it]) (p2 q2 : ℚ) :
    add s cid p p2 q2 = .ok ({ it with quantity := it.quantity + (pyInt q2 : ℚ) },
      saveItem s { it with quantity := it.quantity + (pyInt q2 : ℚ) }) := by
  unfold add
  rw [hf]
  rfl

theorem saveItem_items_of_any {s : Store} {i : Item}
    (h : s.items.any (fun x => decide (x.id = i.id)) = true) :
    (saveItem s i).items = s.items.map (fun x => if x.id = i.id then i else x) := by
  unfold saveItem
  rw [if_pos h]

theorem update_item_of_filter_nil {s : Store} {pk : Nat}
    (hf : s.items.filter (fun i => decide (i.id = pk)) = []) (q : ℚ) :
    update_item s pk q = .error .itemDoesNotExist := by
  unfold update_item
  rw [hf]
  rfl

theorem update_item_of_filter_single {s : Store} {pk : Nat} {it : Item}
    (hf : s.items.filter (fun i => decide (i.id = pk)) = [it]) (q : ℚ) :
    update_item s pk q =
      .ok ({ it with quantity := q }, saveItem s { it with quantity := q }) := by
  unfold update_item
  rw [hf]
  rfl

theorem update_of_filter_single {s : Store} {cid : Nat} {p : ProductRef} {it : Item}
    (hf : s.items.filter (matchItem cid p) = [it]) (q : ℚ) (u : Option ℚ) :
    update s cid p q u =
      .ok ({ it with quantity := q }, saveItem s { it with quantity := q }) := by
  unfold update
  rw [hf]
  rfl

/-- C2: on a cart holding no item for product p, add(p, price1, q1) creates
exactly one item carrying price1 and quantity q1; a second add(p, price2, q2)
on the same cart increments that same item's quantity to q1 + int(q2) while
keeping the first-write price price1, and exactly one item for p exists
afterwards. -/
theorem add_aggregates (s : Store) (cid : Nat) (p : ProductRef) (p1 p2 q1 q2 : ℚ)
    (hWF : ∀ i ∈ s.items, i.id < s.nextItemId)
    (h0 : s.items.filter (matchItem cid p) = []) :
    ∃ it1 s1 it2 s2,
      add s cid p p1 q1 = .ok (it1, s1) ∧
      it1.unitPrice = p1 ∧ it1.quantity = q1 ∧ it1.cartId = cid ∧ it1.product = p ∧
      s1.items.filter (matchItem cid p) = [it1] ∧
      add s1 cid p p2 q2 = .ok (it2, s2) ∧
      it2.quantity = q1 + (pyInt q2 : ℚ) ∧ it2.unitPrice = p1 ∧
      s2.items.filter (matchItem cid p) = [it2] := by
  have hm1 : matchItem cid p ⟨s.nextItemId, cid, p, p1, q1⟩ = true := by
    simp [matchItem]
  have hm2 : matchItem cid p ⟨s.nextItemId, cid, p, p1, q1 + (pyInt q2 : ℚ)⟩ = true := by
    simp [matchItem]
  have hf1 : (s.items ++ [(⟨s.nextItemId, cid, p, p1, q1⟩ : Item)]).filter (matchItem cid p) =
      [⟨s.nextItemId, cid, p, p1, q1⟩] := by
    rw [List.filter_append, h0]
    simp [hm1]
  have hany : (s.items ++ [(⟨s.nextItemId, cid, p, p1, q1⟩ : Item)]).any
      (fun x => decide (x.id = s.nextItemId)) = true := by
    rw [List.any_append]
    simp
  have hsave : (saveItem
      { s with items := s.items ++ [⟨s.nextItemId, cid, p, p1, q1⟩],
               nextItemId := s.nextItemId + 1 }
      ⟨s.nextItemId, cid, p, p1, q1 + (pyInt q2 : ℚ)⟩).items =
      s.items ++ [⟨s.nextItemId, cid, p, p1, q1 + (pyInt q2 : ℚ)⟩] := by
    rw [saveItem_items_of_any hany]
    rw [List.map_append]
    have hmapid : s.items.map (fun x =>
        if x.id = s.nextItemId then (⟨s.nextItemId, cid, p, p1, q1 + (pyInt q2 : ℚ)⟩ : Item)
        else x) = s.items := by
      apply map_id_of_mem
      intro x hx
      have hlt := hWF x hx
      rw [if_neg (by omega)]
    rw [hmapid]
    simp
  refine ⟨⟨s.nextItemId, cid, p, p1, q1⟩,
    { s with items := s.items ++ [⟨s.nextItemId, cid, p, p1, q1⟩],
             nextItemId := s.nextItemId + 1 },
    ⟨s.nextItemId, cid, p, p1, q1 + (pyInt q2 : ℚ)⟩, _,
    add_of_filter_nil h0 p1 q1, rfl, rfl, rfl, rfl, hf1,
    add_of_filter_single hf1 p2 q2, rfl, rfl, ?_⟩
  rw [hsave, List.filter_append, h0]
  simp [hm2]

/-- C2 witness: add_aggregates instantiated on the empty store: the first
add creates the item with quantity 2, the second raises it to 5. -/
theorem add_aggregates_witness :
    ∃ it1 s1 it2 s2,
      add ⟨[⟨1, none, false⟩], [], 2, 1⟩ 1 ⟨0, 1⟩ 10 2 = .ok (it1, s1) ∧
      it1.unitPrice = 10 ∧ it1.quantity = 2 ∧ it1.cartId = 1 ∧ it1.product = ⟨0, 1⟩ ∧
      s1.items.filter (matchItem 1 ⟨0, 1⟩) = [it1] ∧
      add s1 1 ⟨0, 1⟩ 10 3 = .ok (it2, s2) ∧
      it2.quantity = 2 + (pyInt 3 : ℚ) ∧ it2.unitPrice = 10 ∧
      s2.items.filter (matchItem 1 ⟨0, 1⟩) = [it2] :=
  add_aggregates ⟨[⟨1, none, false⟩], [], 2, 1⟩ 1 ⟨0, 1⟩ 10 10 2 3
    (by simp) rfl

/-- C7: update_item looks the item up by bare primary key — the embedding of
the source method takes no cart argument at all, mirroring that the lookup
is not scoped to the proxy's current cart — sets its quantity to the given
absolute value whatever cart the item belongs to, and fails with
ItemDoesNotExist exactly when no item row anywhere carries that id. -/
theorem update_item_spec (s : Store) (pk : Nat) (q : ℚ)
    (hN : (s.items.map Item.id).Nodup) :
    ((∀ i ∈ s.items, i.id ≠ pk) → update_item s pk q = .error .itemDoesNotExist) ∧
    (∀ it, it ∈ s.items → it.id = pk →
      ∃ s', update_item s pk q = .ok ({ it with quantity := q }, s') ∧
        s'.carts = s.carts ∧
        s'.items = s.items.map (fun x => if x.id = pk then { it with quantity := q } else x)) := by
  constructor
  · intro h
    apply update_item_of_filter_nil
    exact List.filter_eq_nil_iff.mpr (fun a ha => by simpa using h a ha)
  · intro it hmem hpk
    subst hpk
    have hf : s.items.filter (fun i => decide (i.id = it.id)) = [it] := by
      apply filter_eq_singleton_of_nodup hN.of_map hmem (by simp)
      intro x hx hpx
      exact List.inj_on_of_nodup_map hN hx hmem (of_decide_eq_true hpx)
    refine ⟨saveItem s { it with quantity := q }, update_item_of_filter_single hf q,
      saveItem_carts s _, ?_⟩
    apply saveItem_items_of_any
    exact List.any_eq_true.mpr ⟨it, hmem, by simp⟩

/-- C7 witness: updating item 2 — which belongs to cart 9, not to the cart 1
a proxy would hold — succeeds and rewrites its quantity. -/
theorem update_item_spec_witness :
    ∃ s', update_item ⟨[⟨1, none, false⟩, ⟨9, none, false⟩],
        [⟨2, 9, ⟨0, 1⟩, 1, 1⟩], 10, 3⟩ 2 5 = .ok (⟨2, 9, ⟨0, 1⟩, 1, 5⟩, s') ∧
      s'.carts = [⟨1, none, false⟩, ⟨9, none, false⟩] ∧
      s'.items = [(⟨2, 9, ⟨0, 1⟩, 1, 1⟩ : Item)].map
        (fun x => if x.id = 2 then ⟨2, 9, ⟨0, 1⟩, 1, 5⟩ else x) :=
  (update_item_spec ⟨[⟨1, none, false⟩, ⟨9, none, false⟩], [⟨2, 9, ⟨0, 1⟩, 1, 1⟩], 10, 3⟩
      2 5 (by decide)).2 ⟨2, 9, ⟨0, 1⟩, 1, 1⟩ (by decide) rfl

/-- C9: count() is the sum of the quantities of the cart's item rows,
unique_count() is the number of item rows — unchanged by any quantity
rewrite through update_item — and the concrete cart holding two rows for
distinct products A and B with quantities 3 and 4 has unique_count 2 and
count 7. -/
theorem count_unique_spec (s : Store) (cid : Nat) :
    count s cid = ((itemsOf s cid).map Item.quantity).sum ∧
    unique_count s cid = (itemsOf s cid).length ∧
    (∀ pk q it s2, update_item s pk q = .ok (it, s2) →
      ∀ cid2, unique_count s2 cid2 = unique_count s cid2) ∧
    unique_count ⟨[⟨1, none, false⟩], [⟨1, 1, ⟨0, 1⟩, 1, 3⟩, ⟨2, 1, ⟨0, 2⟩, 1, 4⟩], 2, 3⟩ 1 = 2 ∧
    count ⟨[⟨1, none, false⟩], [⟨1, 1, ⟨0, 1⟩, 1, 3⟩, ⟨2, 1, ⟨0, 2⟩, 1, 4⟩], 2, 3⟩ 1 = 7 := by
  refine ⟨rfl, rfl, ?_, by decide, ?_⟩
  · intro pk q it s2 h cid2
    rcases hg : s.items.filter (fun i => decide (i.id = pk)) with _ | ⟨it0, _ | ⟨y, t⟩⟩
    · rw [update_item_of_filter_nil hg q] at h
      cases h
    · rw [update_item_of_filter_single hg q] at h
      have hs2 : s2 = saveItem s { it0 with quantity := q } := by
        cases h
        rfl
      subst hs2
      have hpk : it0.id = pk :=
        of_decide_eq_true (mem_of_filter_singleton hg).2
      have hmem : it0 ∈ s.items := (mem_of_filter_singleton hg).1
      have hsave : (saveItem s { it0 with quantity := q }).items =
          s.items.map (fun x => if x.id = it0.id then { it0 with quantity := q } else x) := by
        apply saveItem_items_of_any
        exact List.any_eq_true.mpr ⟨it0, hmem, by simp⟩
      unfold unique_count itemsOf
      rw [hsave, ← List.countP_eq_length_filter, ← List.countP_eq_length_filter,
        List.countP_map]
      apply List.countP_congr
      intro x hx
      show (decide ((if x.id = it0.id then { it0 with quantity := q } else x).cartId = cid2)
          = true) ↔ (decide (x.cartId = cid2) = true)
      by_cases hid : x.id = it0.id
      · have hx0 : x = it0 :=
          eq_of_mem_filter_singleton hg hx (decide_eq_true (hid.trans hpk))
        rw [if_pos hid, hx0]
      · rw [if_neg hid]
    · unfold update_item at h
      rw [hg] at h
      cases h
  · show ((itemsOf _ 1).map Item.quantity).sum = 7
    simp only [itemsOf]
    norm_num

/-- C9 witness: the quantity-independence clause instantiated: rewriting the
quantity of item 1 from 3 to 50 leaves unique_count at 2. -/
theorem count_unique_spec_witness :
    unique_count ⟨[⟨1, none, false⟩], [⟨1, 1, ⟨0, 1⟩, 1, 3⟩, ⟨2, 1, ⟨0, 2⟩, 1, 4⟩], 2, 3⟩ 1 = 2 ∧
    ∀ it s2, update_item ⟨[⟨1, none, false⟩],
        [⟨1, 1, ⟨0, 1⟩, 1, 3⟩, ⟨2, 1, ⟨0, 2⟩, 1, 4⟩], 2, 3⟩ 1 50 = .ok (it, s2) →
      unique_count s2 1 = 2 := by
  constructor
  · exact (count_unique_spec ⟨[⟨1, none, false⟩],
      [⟨1, 1, ⟨0, 1⟩, 1, 3⟩, ⟨2, 1, ⟨0, 2⟩, 1, 4⟩], 2, 3⟩ 1).2.2.2.1
  · intro it s2 h
    rw [(count_unique_spec ⟨[⟨1, none, false⟩],
      [⟨1, 1, ⟨0, 1⟩, 1, 3⟩, ⟨2, 1, ⟨0, 2⟩, 1, 4⟩], 2, 3⟩ 1).2.2.1 1 50 it s2 h 1]
    exact (count_unique_spec ⟨[⟨1, none, false⟩],
      [⟨1, 1, ⟨0, 1⟩, 1, 3⟩, ⟨2, 1, ⟨0, 2⟩, 1, 4⟩], 2, 3⟩ 1).2.2.2.1

/-- C10: update(product, quantity, unit_price) rewrites only the matched
item's quantity: the returned row keeps the stored unit price, product and
owning cart whatever unit_price argument is passed — the argument never
enters the result, two calls differing only in it coincide — and every other
item row of every cart is left in place. -/
theorem update_frame (s : Store) (cid : Nat) (p : ProductRef) (q : ℚ) (u : Option ℚ)
    (it : Item) (hN : (s.items.map Item.id).Nodup)
    (hmem : it ∈ s.items) (hc : it.cartId = cid) (hp : it.product = p)
    (huniq : ∀ j ∈ s.items, j.cartId = cid → j.product = p → j = it) :
    ∃ r s', update s cid p q u = .ok (r, s') ∧
      r.quantity = q ∧ r.unitPrice = it.unitPrice ∧ r.product = it.product ∧
      r.cartId = it.cartId ∧ r.id = it.id ∧
      (∀ u2, update s cid p q u2 = update s cid p q u) ∧
      s'.carts = s.carts ∧
      s'.items = s.items.map (fun x => if x.id = it.id then r else x) ∧
      (∀ j, j ∈ s.items → j ≠ it → j ∈ s'.items) ∧ r ∈ s'.items ∧
      (∀ j ∈ s'.items, j = r ∨ j ∈ s.items) ∧
      s'.items.length = s.items.length := by
  have hf : s.items.filter (matchItem cid p) = [it] := by
    apply filter_eq_singleton_of_nodup hN.of_map hmem
      (by simp [matchItem, hc, hp])
    intro x hx hpx
    have hx2 := of_decide_eq_true hpx
    exact huniq x hx hx2.1 hx2.2
  have hsave : (saveItem s { it with quantity := q }).items =
      s.items.map (fun x => if x.id = it.id then { it with quantity := q } else x) := by
    apply saveItem_items_of_any
    exact List.any_eq_true.mpr ⟨it, hmem, by simp⟩
  refine ⟨{ it with quantity := q }, saveItem s { it with quantity := q },
    update_of_filter_single hf q u, rfl, rfl, rfl, rfl, rfl,
    fun u2 => rfl, saveItem_carts s _, hsave, ?_, ?_, ?_, ?_⟩
  · intro j hj hne
    rw [hsave]
    have hjid : j.id ≠ it.id := fun he => hne (List.inj_on_of_nodup_map hN hj hmem he)
    exact List.mem_map.mpr ⟨j, hj, by rw [if_neg hjid]⟩
  · rw [hsave]
    exact List.mem_map.mpr ⟨it, hmem, by rw [if_pos rfl]⟩
  · intro j hj
    rw [hsave] at hj
    rcases List.mem_map.mp hj with ⟨x, hx, hxe⟩
    by_cases hid : x.id = it.id
    · left
      rw [← hxe, if_pos hid]
    · right
      rw [← hxe, if_neg hid]
      exact hx
  · rw [hsave, List.length_map]

/-- C10 witness: updating product (0,1) in cart 1 with an irrelevant
unit_price argument 99 rewrites only the quantity of item 1; item 2 of cart
2 stays put. -/
theorem update_frame_witness :
    ∃ r s', update ⟨[⟨1, none, false⟩, ⟨2, none, false⟩],
        [⟨1, 1, ⟨0, 1⟩, 3, 1⟩, ⟨2, 2, ⟨0, 1⟩, 4, 1⟩], 3, 3⟩ 1 ⟨0, 1⟩ 6 (some 99) =
        .ok (r, s') ∧
      r.quantity = 6 ∧ r.unitPrice = 3 ∧ r.product = ⟨0, 1⟩ ∧ r.cartId = 1 ∧ r.id = 1 ∧
      (∀ u2, update ⟨[⟨1, none, false⟩, ⟨2, none, false⟩],
        [⟨1, 1, ⟨0, 1⟩, 3, 1⟩, ⟨2, 2, ⟨0, 1⟩, 4, 1⟩], 3, 3⟩ 1 ⟨0, 1⟩ 6 u2 =
        update ⟨[⟨1, none, false⟩, ⟨2, none, false⟩],
          [⟨1, 1, ⟨0, 1⟩, 3, 1⟩, ⟨2, 2, ⟨0, 1⟩, 4, 1⟩], 3, 3⟩ 1 ⟨0, 1⟩ 6 (some 99)) ∧
      s'.carts = [⟨1, none, false⟩, ⟨2, none, false⟩] ∧
      s'.items = [(⟨1, 1, ⟨0, 1⟩, 3, 1⟩ : Item), ⟨2, 2, ⟨0, 1⟩, 4, 1⟩].map
        (fun x => if x.id = 1 then r else x) ∧
      (∀ j, j ∈ [(⟨1, 1, ⟨0, 1⟩, 3, 1⟩ : Item), ⟨2, 2, ⟨0, 1⟩, 4, 1⟩] →
        j ≠ ⟨1, 1, ⟨0, 1⟩, 3, 1⟩ → j ∈ s'.items) ∧ r ∈ s'.items ∧
      (∀ j ∈ s'.items, j = r ∨ j ∈ [(⟨1, 1, ⟨0, 1⟩, 3, 1⟩ : Item), ⟨2, 2, ⟨0, 1⟩, 4, 1⟩]) ∧
      s'.items.length = 2 :=
  update_frame ⟨[⟨1, none, false⟩, ⟨2, none, false⟩],
      [⟨1, 1, ⟨0, 1⟩, 3, 1⟩, ⟨2, 2, ⟨0, 1⟩, 4, 1⟩], 3, 3⟩ 1 ⟨0, 1⟩ 6 (some 99)
    ⟨1, 1, ⟨0, 1⟩, 3, 1⟩ (by decide) (by decide) rfl rfl (by decide)

theorem add_of_filter_multi {s : Store} {cid : Nat} {p : ProductRef} {x y : Item}
    {t : List Item} (hf : s.items.filter (matchItem cid p) = x :: y :: t) (p1 q1 : ℚ) :
    add s cid p p1 q1 = .error .multipleObjectsReturned := by
  unfold add
  rw [hf]
  rfl

theorem update_item_of_filter_multi {s : Store} {pk : Nat} {x y : Item} {t : List Item}
    (hf : s.items.filter (fun i => decide (i.id = pk)) = x :: y :: t) (q : ℚ) :
    update_item s pk q = .error .multipleObjectsReturned := by
  unfold update_item
  rw [hf]
  rfl

theorem update_of_filter_nil {s : Store} {cid : Nat} {p : ProductRef}
    (hf : s.items.filter (matchItem cid p) = []) (q : ℚ) (u : Option ℚ) :
    update s cid p q u = .error .itemDoesNotExist := by
  unfold update
  rw [hf]
  rfl

theorem update_of_filter_multi {s : Store} {cid : Nat} {p : ProductRef} {x y : Item}
    {t : List Item} (hf : s.items.filter (matchItem cid p) = x :: y :: t)
    (q : ℚ) (u : Option ℚ) :
    update s cid p q u = .error .multipleObjectsReturned := by
  unfold update
  rw [hf]
  rfl

theorem delete_old_cart_of_nil {s : Store} {uid : Nat}
    (hf : s.carts.filter (fun c => decide (c.userId = some uid)) = []) :
    delete_old_cart s uid = .ok s := by
  unfold delete_old_cart
  rw [hf]
  rfl

theorem delete_old_cart_of_single {s : Store} {uid : Nat} {w : Cart}
    (hf : s.carts.filter (fun c => decide (c.userId = some uid)) = [w]) :
    delete_old_cart s uid = .ok (deleteCart s w) := by
  unfold delete_old_cart
  rw [hf]
  rfl

theorem delete_old_cart_of_multi {s : Store} {uid : Nat} {x y : Cart} {t : List Cart}
    (hf : s.carts.filter (fun c => decide (c.userId = some uid)) = x :: y :: t) :
    delete_old_cart s uid = .error .multipleObjectsReturned := by
  unfold delete_old_cart
  rw [hf]
  rfl

theorem get_last_cart_of_single {s : Store} {me : Cart} {uid : Nat} {w : Cart}
    (hf : s.carts.filter (fun c => decide (c.userId = some uid ∧ c.checkedOut = false)) = [w]) :
    get_last_cart s me uid = .ok (w, me, s) := by
  unfold get_last_cart
  rw [hf]
  rfl

theorem get_last_cart_of_nil {s : Store} {me : Cart} {uid : Nat}
    (hf : s.carts.filter (fun c => decide (c.userId = some uid ∧ c.checkedOut = false)) = []) :
    get_last_cart s me uid = .ok ({ me with userId := some uid },
      { me with userId := some uid }, saveCart s { me with userId := some uid }) := by
  unfold get_last_cart
  rw [hf]
  rfl

theorem get_last_cart_of_multi {s : Store} {me : Cart} {uid : Nat} {x y : Cart}
    {t : List Cart}
    (hf : s.carts.filter
      (fun c => decide (c.userId = some uid ∧ c.checkedOut = false)) = x :: y :: t) :
    get_last_cart s me uid = .error .multipleObjectsReturned := by
  unfold get_last_cart
  rw [hf]
  rfl

theorem openIn_false_iff {s : Store} {i : Nat} :
    openIn s i = false ↔ ∀ c ∈ s.carts, c.id = i → c.checkedOut = true := by
  unfold openIn
  rw [List.any_eq_false]
  constructor
  · intro h c hc hci
    have h2 := h c hc
    simp only [decide_eq_true_eq, not_and] at h2
    have h3 := h2 hci
    revert h3
    cases c.checkedOut <;> simp
  · intro h c hc
    simp only [decide_eq_true_eq, not_and]
    intro hci
    rw [h c hc hci]
    simp

theorem initFallback_some {s : Store} {req : Option Request} {cArg : Cart} :
    initFallback s req (some cArg) =
      match djGet (s.carts.filter (fun c => decide (c.id = cArg.id))) with
      | .ok c => .ok (c, s)
      | .error .doesNotExist => .error .djDoesNotExist
      | .error .multipleObjectsReturned => .error .multipleObjectsReturned := rfl

theorem init_ok_cases {s : Store} {req : Option Request} {cartArg : Option Cart}
    {c : Cart} {s' : Store} (h : init s req cartArg = .ok (c, s')) :
    (s' = s ∧ c ∈ s.carts) ∨
      (∃ uid, c = ⟨s.nextCartId, uid, false⟩ ∧ s' = (new s uid).2) := by
  unfold init at h
  cases htry : initTry s req with
  | ok c0 =>
    rw [htry] at h
    simp at h
    left
    exact ⟨h.2.symm, h.1 ▸ (initTry_ok htry).1⟩
  | error e =>
    rw [htry] at h
    cases cartArg with
    | some cArg =>
      rw [show (match Except.error e with
          | Except.ok c => (Except.ok (c, s) : Except PErr (Cart × Store))
          | Except.error _ => initFallback s req (some cArg)) =
          initFallback s req (some cArg) from rfl, initFallback_some] at h
      rcases hg : s.carts.filter (fun x => decide (x.id = cArg.id)) with _ | ⟨w, _ | ⟨y, t⟩⟩
      · rw [hg] at h
        simp [djGet] at h
      · rw [hg] at h
        simp [djGet] at h
        left
        exact ⟨h.2.symm, h.1 ▸ (mem_of_filter_singleton hg).1⟩
      · rw [hg] at h
        simp [djGet] at h
    | none =>
      cases req with
      | none => simp [initFallback] at h
      | some r =>
        simp [initFallback] at h
        right
        refine ⟨r.authUserId, ?_, ?_⟩
        · exact (congrArg Prod.fst h).symm
        · exact (congrArg Prod.snd h).symm

theorem delete_old_cart_ok_cases {s : Store} {uid : Nat} {s1 : Store}
    (h : delete_old_cart s uid = .ok s1) :
    s1 = s ∨ ∃ w, w ∈ s.carts ∧ s1 = deleteCart s w := by
  rcases hf : s.carts.filter (fun c => decide (c.userId = some uid)) with _ | ⟨w, _ | ⟨y, t⟩⟩
  · rw [delete_old_cart_of_nil hf] at h
    simp at h
    left
    exact h.symm
  · rw [delete_old_cart_of_single hf] at h
    simp at h
    right
    exact ⟨w, (mem_of_filter_singleton hf).1, h.symm⟩
  · rw [delete_old_cart_of_multi hf] at h
    cases h

theorem replace_ok_cases {s : Store} {cart_id uid : Nat} {c' : Cart} {s2 : Store}
    (h : replace s cart_id uid = .ok (c', s2)) :
    ∃ s1 w, delete_old_cart s uid = .ok s1 ∧ w ∈ s1.carts ∧
      c' = { w with userId := some uid } ∧ s2 = saveCart s1 c' := by
  cases hDel : delete_old_cart s uid with
  | error e =>
    unfold replace at h
    rw [hDel] at h
    cases h
  | ok s1 =>
    rw [replace_eq_of_del hDel] at h
    rcases hg : s1.carts.filter (fun c => decide (c.id = cart_id)) with _ | ⟨w, _ | ⟨y, t⟩⟩
    · rw [hg] at h
      simp [djGet] at h
    · rw [hg] at h
      simp [djGet] at h
      refine ⟨s1, w, rfl, (mem_of_filter_singleton hg).1, h.1.symm, ?_⟩
      rw [← h.1]
      exact h.2.symm
    · rw [hg] at h
      simp [djGet] at h

theorem NeverOpen_of_carts_eq {s s' : Store} {cur : Cart} {i : Nat}
    (hc : s'.carts = s.carts) (hn : s'.nextCartId = s.nextCartId)
    (h : NeverOpen ⟨s, cur⟩ i) : NeverOpen ⟨s', cur⟩ i := by
  obtain ⟨⟨hW1, hW2, hW3, hW4⟩, hN1, hN2, hN3⟩ := h
  refine ⟨⟨?_, ?_, ?_, ?_⟩, ?_, ?_, hN3⟩
  · intro c hcc
    rw [hn]
    exact hW1 c (hc ▸ hcc)
  · rw [hc]
    exact hW2
  · intro c hcc
    exact hW3 c (hc ▸ hcc)
  · rw [hn]
    exact hW4
  · rw [hn]
    exact hN1
  · show openIn s' i = false
    unfold openIn
    rw [hc]
    exact hN2

theorem NeverOpen_setCur {s : Store} {cur cur' : Cart} {i : Nat}
    (h : NeverOpen ⟨s, cur⟩ i) (hid : cur'.id < s.nextCartId)
    (hW3' : ∀ x ∈ s.carts, x.id = cur'.id → x.checkedOut = true → cur'.checkedOut = true)
    (hN3' : cur'.id = i → cur'.checkedOut = true) :
    NeverOpen ⟨s, cur'⟩ i := by
  exact ⟨⟨h.1.1, h.1.2.1, hW3', hid⟩, h.2.1, h.2.2.1, hN3'⟩

theorem NeverOpen_saveCart {s : Store} {cur c : Cart} {i : Nat}
    (h : NeverOpen ⟨s, cur⟩ i) (hlt : c.id < s.nextCartId)
    (hW3c : c.id = cur.id → c.checkedOut = true → cur.checkedOut = true)
    (hNic : c.id = i → c.checkedOut = true) :
    NeverOpen ⟨saveCart s c, cur⟩ i := by
  obtain ⟨⟨hW1, hW2, hW3, hW4⟩, hN1, hN2, hN3⟩ := h
  have hnext := saveCart_nextCartId s c
  refine ⟨⟨?_, ?_, ?_, ?_⟩, ?_, ?_, hN3⟩
  · intro x hx
    rw [hnext]
    rcases saveCart_mem hx with h1 | h1
    · rw [h1]
      exact hlt
    · exact hW1 x h1
  · rcases saveCart_ids s c with h1 | ⟨h1, h2⟩
    · rw [h1]
      exact hW2
    · rw [h1, List.nodup_append]
      refine ⟨hW2, List.nodup_singleton _, ?_⟩
      intro a ha hb
      rw [List.mem_singleton.mp hb] at ha
      exact h2 ha
  · intro x hx hid hco
    rcases saveCart_mem hx with h1 | h1
    · rw [h1] at hid hco
      exact hW3c hid hco
    · exact hW3 x h1 hid hco
  · rw [hnext]
    exact hW4
  · rw [hnext]
    exact hN1
  · rw [openIn_false_iff] at hN2 ⊢
    intro x hx hid
    rcases saveCart_mem hx with h1 | h1
    · rw [h1]
      exact hNic (by rw [← h1]; exact hid)
    · exact hN2 x h1 hid

theorem NeverOpen_deleteCart {s : Store} {cur w : Cart} {i : Nat}
    (h : NeverOpen ⟨s, cur⟩ i) : NeverOpen ⟨deleteCart s w, cur⟩ i := by
  obtain ⟨⟨hW1, hW2, hW3, hW4⟩, hN1, hN2, hN3⟩ := h
  refine ⟨⟨?_, ?_, ?_, ?_⟩, hN1, ?_, hN3⟩
  · intro c hc
    exact hW1 c (deleteCart_mem_carts.mp hc).1
  · show ((s.carts.filter _).map Cart.id).Nodup
    exact ((List.filter_sublist s.carts).map Cart.id).nodup hW2
  · intro c hc
    exact hW3 c (deleteCart_mem_carts.mp hc).1
  · exact hW4
  · rw [openIn_false_iff] at hN2 ⊢
    intro c hc
    exact hN2 c (deleteCart_mem_carts.mp hc).1

theorem NeverOpen_new {s : Store} {cur : Cart} {i : Nat} (uid : Option Nat)
    (h : NeverOpen ⟨s, cur⟩ i) : NeverOpen ⟨(new s uid).2, cur⟩ i := by
  obtain ⟨⟨hW1, hW2, hW3, hW4⟩, hN1, hN2, hN3⟩ := h
  refine ⟨⟨?_, ?_, ?_, ?_⟩, ?_, ?_, hN3⟩
  · intro c hc
    show c.id < s.nextCartId + 1
    rcases List.mem_append.mp hc with h1 | h1
    · exact Nat.lt_succ_of_lt (hW1 c h1)
    · rw [List.mem_singleton.mp h1]
      exact Nat.lt_succ_self _
  · show ((s.carts ++ [(⟨s.nextCartId, uid, false⟩ : Cart)]).map Cart.id).Nodup
    rw [List.map_append, List.nodup_append]
    refine ⟨hW2, List.nodup_singleton _, ?_⟩
    intro a ha hb
    rcases List.mem_map.mp ha with ⟨x, hx, hxa⟩
    have hxlt : x.id < s.nextCartId := hW1 x hx
    rw [List.mem_singleton.mp hb] at hxa
    show False
    rw [show Cart.id (⟨s.nextCartId, uid, false⟩ : Cart) = s.nextCartId from rfl] at hxa
    omega
  · intro c hc hid hco
    rcases List.mem_append.mp hc with h1 | h1
    · exact hW3 c h1 hid hco
    · rw [List.mem_singleton.mp h1] at hco
      cases hco
  · exact Nat.lt_succ_of_lt hW4
  · exact Nat.lt_succ_of_lt hN1
  · rw [openIn_false_iff] at hN2 ⊢
    intro c hc hci
    rcases List.mem_append.mp hc with h1 | h1
    · exact hN2 c h1 hci
    · rw [List.mem_singleton.mp h1] at hci ⊢
      exfalso
      have hilt : i < s.nextCartId := hN1
      rw [show Cart.id (⟨s.nextCartId, uid, false⟩ : Cart) = s.nextCartId from rfl] at hci
      omega

theorem step_inv {σ : Sess} {i : Nat} (op : Op) (h : NeverOpen σ i) :
    NeverOpen (step σ op) i := by
  obtain ⟨s, cur⟩ := σ
  cases op with
  | resolveOp req cartArg =>
    cases hres : init s req cartArg with
    | error e =>
      simp only [step, hres]
      exact h
    | ok pair =>
      obtain ⟨c, s'⟩ := pair
      simp only [step, hres]
      rcases init_ok_cases hres with ⟨hs, hc⟩ | ⟨uid, hcn, hsn⟩
      · subst hs
        obtain ⟨⟨hW1, hW2, hW3, hW4⟩, hN1, hN2, hN3⟩ := h
        refine ⟨⟨hW1, hW2, ?_, hW1 c hc⟩, hN1, hN2, ?_⟩
        · intro x hx hid hco
          rwa [List.inj_on_of_nodup_map hW2 hx hc hid] at hco
        · intro hci
          exact (openIn_false_iff.mp hN2) c hc hci
      · subst hcn
        subst hsn
        have h2 := NeverOpen_new uid h
        obtain ⟨⟨hW1, hW2, hW3, hW4⟩, hN1, hN2, hN3⟩ := h2
        have hW1o : ∀ x ∈ s.carts, x.id < s.nextCartId := h.1.1
        have hN1o : i < s.nextCartId := h.2.1
        refine ⟨⟨hW1, hW2, ?_, ?_⟩, hN1, hN2, ?_⟩
        · intro x hx hid hco
          rcases List.mem_append.mp hx with h1 | h1
          · have hxlt := hW1o x h1
            rw [show Cart.id (⟨s.nextCartId, uid, false⟩ : Cart) = s.nextCartId from rfl]
              at hid
            exact absurd hid (by omega)
          · rw [List.mem_singleton.mp h1] at hco
            cases hco
        · show s.nextCartId < s.nextCartId + 1
          exact Nat.lt_succ_self _
        · intro hci
          rw [show Cart.id (⟨s.nextCartId, uid, false⟩ : Cart) = s.nextCartId from rfl]
            at hci
          exact absurd hci (by omega)
  | newOp uid =>
    simp only [step]
    exact NeverOpen_new uid h
  | addOp p price q =>
    cases hadd : add s cur.id p price q with
    | error e =>
      simp only [step, hadd]
      exact h
    | ok pair =>
      obtain ⟨it, s'⟩ := pair
      simp only [step, hadd]
      have heff : s'.carts = s.carts ∧ s'.nextCartId = s.nextCartId := by
        rcases hfs : s.items.filter (matchItem cur.id p) with _ | ⟨it0, _ | ⟨y, t⟩⟩
        · rw [add_of_filter_nil hfs price q] at hadd
          cases hadd
          exact ⟨rfl, rfl⟩
        · rw [add_of_filter_single hfs price q] at hadd
          cases hadd
          exact ⟨saveItem_carts _ _, (saveItem_nextIds _ _).1⟩
        · rw [add_of_filter_multi hfs price q] at hadd
          cases hadd
      exact NeverOpen_of_carts_eq heff.1 heff.2 h
  | removeItemOp iid =>
    simp only [step, remove_item]
    exact NeverOpen_of_carts_eq rfl rfl h
  | updateItemOp pk q =>
    cases hup : update_item s pk q with
    | error e =>
      simp only [step, hup]
      exact h
    | ok pair =>
      obtain ⟨it, s'⟩ := pair
      simp only [step, hup]
      have heff : s'.carts = s.carts ∧ s'.nextCartId = s.nextCartId := by
        rcases hfs : s.items.filter (fun i => decide (i.id = pk)) with _ | ⟨it0, _ | ⟨y, t⟩⟩
        · rw [update_item_of_filter_nil hfs q] at hup
          cases hup
        · rw [update_item_of_filter_single hfs q] at hup
          cases hup
          exact ⟨saveItem_carts _ _, (saveItem_nextIds _ _).1⟩
        · rw [update_item_of_filter_multi hfs q] at hup
          cases hup
      exact NeverOpen_of_carts_eq heff.1 heff.2 h
  | updateOp p q u =>
    cases hup : update s cur.id p q u with
    | error e =>
      simp only [step, hup]
      exact h
    | ok pair =>
      obtain ⟨it, s'⟩ := pair
      simp only [step, hup]
      have heff : s'.carts = s.carts ∧ s'.nextCartId = s.nextCartId := by
        rcases hfs : s.items.filter (matchItem cur.id p) with _ | ⟨it0, _ | ⟨y, t⟩⟩
        · rw [update_of_filter_nil hfs q u] at hup
          cases hup
        · rw [update_of_filter_single hfs q u] at hup
          cases hup
          exact ⟨saveItem_carts _ _, (saveItem_nextIds _ _).1⟩
        · rw [update_of_filter_multi hfs q u] at hup
          cases hup
      exact NeverOpen_of_carts_eq heff.1 heff.2 h
  | deleteOldCartOp uid =>
    cases hdel : delete_old_cart s uid with
    | error e =>
      simp only [step, hdel]
      exact h
    | ok s' =>
      simp only [step, hdel]
      rcases delete_old_cart_ok_cases hdel with h1 | ⟨w, _, h1⟩
      · subst h1
        exact h
      · subst h1
        exact NeverOpen_deleteCart h
  | replaceOp cid uid =>
    cases hrep : replace s cid uid with
    | error e =>
      simp only [step, hrep]
      exact h
    | ok pair =>
      obtain ⟨c', s2⟩ := pair
      simp only [step, hrep]
      obtain ⟨s1, w, hDel, hwmem, hc', hs2⟩ := replace_ok_cases hrep
      subst hc'
      subst hs2
      have h1 : NeverOpen ⟨s1, cur⟩ i := by
        rcases delete_old_cart_ok_cases hDel with he | ⟨w0, _, he⟩
        · subst he
          exact h
        · subst he
          exact NeverOpen_deleteCart h
      obtain ⟨⟨hW1, hW2, hW3, hW4⟩, hN1, hN2, hN3⟩ := h1
      apply NeverOpen_saveCart ⟨⟨hW1, hW2, hW3, hW4⟩, hN1, hN2, hN3⟩
      · exact hW1 w hwmem
      · intro hid hco
        exact hW3 w hwmem hid hco
      · intro hci
        exact (openIn_false_iff.mp hN2) w hwmem hci
  | clearOp =>
    simp only [step, clear]
    exact NeverOpen_of_carts_eq rfl rfl h
  | checkoutOp =>
    simp only [step, checkout]
    have h2 : NeverOpen ⟨s, { cur with checkedOut := true }⟩ i := by
      apply NeverOpen_setCur h
      · exact h.1.2.2.2
      · intro x hx hid hco
        rfl
      · intro hci
        rfl
    apply NeverOpen_saveCart h2
    · exact h.1.2.2.2
    · intro hid hco
      rfl
    · intro hci
      rfl
  | getLastCartOp uid =>
    rcases hf : s.carts.filter
        (fun c => decide (c.userId = some uid ∧ c.checkedOut = false)) with _ | ⟨w, _ | ⟨y, t⟩⟩
    · simp only [step, get_last_cart_of_nil hf]
      obtain ⟨⟨hW1, hW2, hW3, hW4⟩, hN1, hN2, hN3⟩ := h
      have h2 : NeverOpen ⟨s, { cur with userId := some uid }⟩ i := by
        apply NeverOpen_setCur ⟨⟨hW1, hW2, hW3, hW4⟩, hN1, hN2, hN3⟩
        · exact hW4
        · intro x hx hid hco
          exact hW3 x hx hid hco
        · intro hci
          exact hN3 hci
      apply NeverOpen_saveCart h2
      · exact hW4
      · intro hid hco
        exact hco
      · intro hci
        exact hN3 hci
    · simp only [step, get_last_cart_of_single hf]
      exact h
    · simp only [step, get_last_cart_of_multi hf]
      exact h

theorem run_inv {σ : Sess} {i : Nat} (ops : List Op) (h : NeverOpen σ i) :
    NeverOpen (run σ ops) i := by
  induction ops generalizing σ with
  | nil => exact h
  | cons op t ih => exact ih (step_inv op h)

theorem NeverOpen_start {σ : Sess} {i : Nat} (hWF : WFsess σ)
    (hco : checkedOutIn σ.store i = true) : NeverOpen σ i := by
  obtain ⟨hW1, hW2, hW3, hW4⟩ := hWF
  rcases List.any_eq_true.mp hco with ⟨c, hc, hpc⟩
  have hcp := of_decide_eq_true hpc
  refine ⟨⟨hW1, hW2, hW3, hW4⟩, ?_, ?_, ?_⟩
  · rw [← hcp.1]
    exact hW1 c hc
  · rw [openIn_false_iff]
    intro x hx hxi
    rw [List.inj_on_of_nodup_map hW2 hx hc (hxi.trans hcp.1.symm)]
    exact hcp.2
  · intro hcur
    exact hW3 c hc (hcp.1.trans hcur.symm) hcp.2

/-- C8: a cart is created with checkedOut false; checkout flips the flag to
true on the proxy's cart and persists it; and across every sequence of proxy
operations run from a well-formed session, an id whose stored cart row is
checked out never again carries an open cart row — the flag is never reset
to false by any operation of the system. -/
theorem checkout_terminal :
    (∀ s uid, (new s uid).1.checkedOut = false) ∧
    (∀ s cart, (checkout s cart).1.checkedOut = true ∧
      checkedOutIn (checkout s cart).2 cart.id = true) ∧
    (∀ σ i ops, WFsess σ → checkedOutIn σ.store i = true →
      openIn (run σ ops).store i = false) := by
  refine ⟨fun s uid => rfl, fun s cart => ⟨rfl, ?_⟩, fun σ i ops hWF hco => ?_⟩
  · exact List.any_eq_true.mpr ⟨{ cart with checkedOut := true }, saveCart_mem_self, by simp⟩
  · exact (run_inv ops (NeverOpen_start hWF hco)).2.2.1

/-- C8 witness: in a session whose store holds the checked-out cart 0, the
never-reopens clause instantiated on a run of get_last_cart, new and
delete_old_cart operations. -/
theorem checkout_terminal_witness :
    WFsess ⟨⟨[⟨0, some 4, true⟩], [], 1, 1⟩, ⟨0, some 4, true⟩⟩ ∧
    checkedOutIn (⟨[⟨0, some 4, true⟩], [], 1, 1⟩ : Store) 0 = true ∧
    openIn (run ⟨⟨[⟨0, some 4, true⟩], [], 1, 1⟩, ⟨0, some 4, true⟩⟩
      [Op.getLastCartOp 4, Op.newOp (some 4), Op.deleteOldCartOp 4]).store 0 = false :=
  ⟨by decide, rfl,
    checkout_terminal.2.2 ⟨⟨[⟨0, some 4, true⟩], [], 1, 1⟩, ⟨0, some 4, true⟩⟩ 0
      [Op.getLastCartOp 4, Op.newOp (some 4), Op.deleteOldCartOp 4] (by decide) rfl⟩

end Changuito
